import Mathlib

/-!
Verification of the noobaa-sa-ci repository against its specification.

The development shallowly embeds the Python sources:
- `noobaa_sa/bucket_policy.py` (`BucketPolicy`, `BucketPolicyBuilder`),
- `noobaa_sa/anonymous_account_manager.py` (`AnonymousAccountManager`),
- `tests/bucket_policies/s3_operation_access_tester.py`
  (`S3OperationAccessTester.check_client_access_to_bucket_op`),
- `utility/utils.py` (`parse_dd_size_to_kb`).

Python dictionaries are embedded as insertion-ordered association lists,
JSON values as the inductive `JVal`, raised exceptions as an `Option String`
carried next to the post-state (so that an exception path also records the
state left behind), and the remote SSH connection as an explicit function
from a command string to an exit code, stdout and stderr triple.
-/

namespace NoobaaSa

/-- JSON-like values: the shapes produced by the Python code under study
(strings, arrays, objects with insertion-ordered fields, integers, booleans,
null). Floating point numbers never arise in the modelled code paths. -/
inductive JVal where
  | str (s : String)
  | arr (elems : List JVal)
  | obj (fields : List (String × JVal))
  | num (n : Int)
  | boolv (b : Bool)
  | nullv

/-- A bucket-policy statement: a Python dict, i.e. an insertion-ordered
association list from keys to JSON values. -/
abbrev Stmt := List (String × JVal)

/-- Lookup in a Python dict (`d[k]` / `k in d`): the value at the first
(and, for a genuine dict, only) occurrence of the key. -/
def dictGet (d : List (String × JVal)) (k : String) : Option JVal :=
  match d with
  | [] => none
  | (k2, v) :: t => if k2 = k then some v else dictGet t k

/-- Assignment in a Python dict (`d[k] = v`): replace the value in place if
the key is present, otherwise append the new key at the end (Python dicts
preserve insertion order). -/
def dictSet (d : List (String × JVal)) (k : String) (v : JVal) :
    List (String × JVal) :=
  match d with
  | [] => [(k, v)]
  | (k2, w) :: t => if k2 = k then (k2, v) :: t else (k2, w) :: dictSet t k v

/-- Whether the character list `pat` occurs contiguously inside `s`:
Python's substring test `pat in s`. -/
def listInfixOf (pat : List Char) : List Char → Bool
  | [] => pat.isEmpty
  | c :: t => pat.isPrefixOf (c :: t) || listInfixOf pat t

/-- Python's `sub in s` on strings (contiguous substring test). -/
def pyInStr (sub s : String) : Bool :=
  listInfixOf sub.data s.data

/-- Python's `s.lower()` restricted to ASCII, which is all the code uses. -/
def pyLower (s : String) : String :=
  ⟨s.data.map Char.toLower⟩

/-- Python's `s.startswith(pre)`. -/
def strStartsWith (s pre : String) : Bool :=
  pre.data.isPrefixOf s.data

/-- `BucketPolicy.DEFAULT_VERSION` from `noobaa_sa/bucket_policy.py`. -/
def DEFAULT_VERSION : String := "2012-10-17"

/-- `BucketPolicy.ACTION_PREFIX` from `noobaa_sa/bucket_policy.py`. -/
def actionPrefixStr : String := "s3:"

/-- `BucketPolicy.RESOURCE_PREFIX` from `noobaa_sa/bucket_policy.py`. -/
def resourcePrefixStr : String := "arn:aws:s3:::"

/-- The `BucketPolicy` value object: a version string and an ordered list of
statements (`noobaa_sa/bucket_policy.py`). -/
structure BucketPolicy where
  version : String
  statements : List Stmt

/-- `BucketPolicy.__init__`: the default version and no statements. -/
def BucketPolicy.empty : BucketPolicy :=
  ⟨DEFAULT_VERSION, []⟩

/-- `BucketPolicyBuilder._assure_prefix`: choose the fixed prefix from the
property name (action properties get `s3:`, resource properties get
`arn:aws:s3:::`, anything else the empty prefix) and prepend it unless the
value already starts with it. -/
def assurePrefixed (property value : String) : String :=
  let p :=
    if pyInStr "action" (pyLower property) then actionPrefixStr
    else if pyInStr "resource" (pyLower property) then resourcePrefixStr
    else ""
  if strStartsWith value p then value else p ++ value

/-- The scalar-to-list update at the heart of
`BucketPolicyBuilder._update_property_on_last_statement` (the final
`if property not in d / elif isinstance(d[property], list) / else` block):
a missing key is stored as a scalar, a list value is appended to, and any
other existing value is wrapped together with the new one in a fresh
two-element list. -/
def setScalarOrList (d : List (String × JVal)) (k : String) (v : String) :
    List (String × JVal) :=
  match dictGet d k with
  | none => dictSet d k (.str v)
  | some (.arr l) => dictSet d k (.arr (l ++ [.str v]))
  | some old => dictSet d k (.arr [old, .str v])

/-- The effect of `_update_property_on_last_statement` on the last statement
itself, given that one exists. Returns the raised Python exception, if any,
next to the resulting statement. Principal-like properties go through
`setdefault(property, {})` and then write under the `"AWS"` key of that
nested dict; a principal-like property whose current value is not a dict
makes the subsequent item assignment raise a `TypeError` before any
mutation. All other properties are written directly on the statement. -/
def updateStmtProperty (stmt : Stmt) (property value : String) :
    Option String × Stmt :=
  let v := assurePrefixed property value
  if pyInStr "principal" (pyLower property) then
    match dictGet stmt property with
    | none => (none, dictSet stmt property (.obj (setScalarOrList [] "AWS" v)))
    | some (.obj fields) =>
        (none, dictSet stmt property (.obj (setScalarOrList fields "AWS" v)))
    | some _ => (some "TypeError", stmt)
  else
    (none, setScalarOrList stmt property v)

/-- `BucketPolicyBuilder._update_property_on_last_statement` on the full
statement list: raise `ValueError` (leaving the list untouched) when there
is no statement, otherwise rewrite the last statement in place. -/
def updatePropertyOnLastStatement (stmts : List Stmt)
    (property value : String) : Option String × List Stmt :=
  match stmts.getLast? with
  | none => (some "No statement to update", stmts)
  | some lastStmt =>
    match updateStmtProperty lastStmt property value with
    | (some e, _) => (some e, stmts)
    | (none, newStmt) => (none, stmts.dropLast ++ [newStmt])

/-- The property-updating builder operations, lifted to the policy: the
exception raised (if any) next to the policy left behind. -/
def updateOnPolicy (p : BucketPolicy) (property value : String) :
    Option String × BucketPolicy :=
  let r := updatePropertyOnLastStatement p.statements property value
  (r.1, { p with statements := r.2 })

/-- `BucketPolicyBuilder.add_allow_statement`. -/
def addAllowStatement (p : BucketPolicy) : BucketPolicy :=
  { p with statements := p.statements ++ [[("Effect", JVal.str "Allow")]] }

/-- `BucketPolicyBuilder.add_deny_statement`. -/
def addDenyStatement (p : BucketPolicy) : BucketPolicy :=
  { p with statements := p.statements ++ [[("Effect", JVal.str "Deny")]] }

/-- `BucketPolicyBuilder.add_principal`. -/
def addPrincipal (p : BucketPolicy) (principal : String) :
    Option String × BucketPolicy :=
  updateOnPolicy p "Principal" principal

/-- `BucketPolicyBuilder.add_not_principal`. -/
def addNotPrincipal (p : BucketPolicy) (notPrincipal : String) :
    Option String × BucketPolicy :=
  updateOnPolicy p "NotPrincipal" notPrincipal

/-- `BucketPolicyBuilder.add_action`. -/
def addAction (p : BucketPolicy) (action : String) :
    Option String × BucketPolicy :=
  updateOnPolicy p "Action" action

/-- `BucketPolicyBuilder.add_not_action`. -/
def addNotAction (p : BucketPolicy) (notAction : String) :
    Option String × BucketPolicy :=
  updateOnPolicy p "NotAction" notAction

/-- `BucketPolicyBuilder.add_resource`. -/
def addResource (p : BucketPolicy) (resource : String) :
    Option String × BucketPolicy :=
  updateOnPolicy p "Resource" resource

/-- `BucketPolicyBuilder.add_not_resource`. -/
def addNotResource (p : BucketPolicy) (notResource : String) :
    Option String × BucketPolicy :=
  updateOnPolicy p "NotResource" notResource

/-- Modelled from the spec: the validation strategies of
`S3OperationAccessTester` live in the `access_validation_strategies` module,
which is not among the available sources; per the spec they map an operation
to an expected authorization outcome, exposing an expected success code
against which the response is classified. -/
structure AccessValidationStrategy where
  expected_success_code : String

/-- The classification step of
`S3OperationAccessTester.check_client_access_to_bucket_op`
(`tests/bucket_policies/s3_operation_access_tester.py`): the response code is
compared first against the strategy's expected success code, then against
`"AccessDenied"`, and anything else raises. -/
def checkClientAccessToBucketOp (strat : AccessValidationStrategy)
    (responseCode : String) : Except String Bool :=
  if responseCode = strat.expected_success_code then .ok true
  else if responseCode = "AccessDenied" then .ok false
  else .error ("Unexpected response code: " ++ responseCode)

/-- Modelled from the spec: `MANAGE_NSFS` comes from `noobaa_sa/defaults.py`,
which is not among the available sources; the spec only fixes the invocation
shape `sudo <tool> account {add,delete,update,status} ...`, so the tool path
is an abstract constant. -/
def MANAGE_NSFS : String := "noobaa-cli"

/-- A remote SSH connection, embedded as the observable behaviour of
`conn.exec_cmd`: each command string yields an exit code, stdout and
stderr. -/
abbrev ExecCmd := String → Int × String × String

/-- Python's `"NoSuchAccount" in stdout` check used by the anonymous
account manager. -/
def containsNoSuchAccount (stdout : String) : Bool :=
  pyInStr "NoSuchAccount" stdout

/-- The `account add --anonymous` command built by
`AnonymousAccountManager.create` when a uid and gid pair is given. -/
def createUidGidCmd (u g : String) : String :=
  "sudo " ++ MANAGE_NSFS ++ " account add --anonymous " ++
    "--uid " ++ u ++ " --gid " ++ g

/-- The `account add --anonymous` command built by
`AnonymousAccountManager.create` when a user name is given. -/
def createUserCmd (u : String) : String :=
  "sudo " ++ MANAGE_NSFS ++ " account add --anonymous " ++ "--user " ++ u

/-- The command sent by `AnonymousAccountManager.delete`. -/
def deleteCmdStr : String :=
  "sudo " ++ MANAGE_NSFS ++ " account delete --anonymous"

/-- The command sent by `AnonymousAccountManager.status`. -/
def statusCmdStr : String :=
  "sudo " ++ MANAGE_NSFS ++ " account status --anonymous"

/-- The message of the `AccountCreationFailed` raised by
`AnonymousAccountManager.create` when neither a uid and gid pair nor a
user name is supplied. -/
def missingArgsMsg : String :=
  "AccountCreationFailed: Please provide either a valid uid and gid pair, or a valid user name"

/-- `AnonymousAccountManager.create`: validate the arguments, build the CLI
command, run it, and raise `AccountCreationFailed` on a non-zero exit. The
first component lists the remote commands actually executed; the second is
the outcome, with a raised exception embedded as `Except.error`. A uid and
gid pair is used whenever both are not `None`; otherwise a truthy (non-empty)
user name; otherwise the method raises before any remote call. -/
def createAnonymousAccount (uid gid user : Option String) (conn : ExecCmd) :
    List String × Except String Unit :=
  match uid, gid with
  | some u, some g =>
    let cmd := createUidGidCmd u g
    let (retcode, stdout, _) := conn cmd
    ([cmd],
      if retcode ≠ 0 then
        .error ("AccountCreationFailed: Creation of anonymous account failed with error " ++ stdout)
      else .ok ())
  | _, _ =>
    match user with
    | some u =>
      if u = "" then ([], .error missingArgsMsg)
      else
        let cmd := createUserCmd u
        let (retcode, stdout, _) := conn cmd
        ([cmd],
          if retcode ≠ 0 then
            .error ("AccountCreationFailed: Creation of anonymous account failed with error " ++ stdout)
          else .ok ())
    | none => ([], .error missingArgsMsg)

/-- `AnonymousAccountManager.delete`: a non-zero exit whose stdout contains
`"NoSuchAccount"` is logged as "already deleted" and the method returns
normally; any other non-zero exit raises `AccountDeletionFailed`. -/
def deleteAnonymousAccount (conn : ExecCmd) :
    List String × Except String Unit :=
  let (retcode, stdout, _) := conn deleteCmdStr
  ([deleteCmdStr],
    if retcode ≠ 0 then
      if containsNoSuchAccount stdout then .ok ()
      else
        .error ("AccountDeletionFailed: Deletion of the anonymous account failed with error " ++ stdout)
    else .ok ())

/-- The JSON extraction at the end of `AnonymousAccountManager.status`:
`json.loads(stdout)["response"]["reply"]`, with the Python `KeyError` and
`TypeError` paths made explicit. The external `json.loads` is a parameter. -/
def statusParseReply (jsonLoads : String → Except String JVal)
    (stdout : String) : Except String (Option JVal) :=
  match jsonLoads stdout with
  | .error e => .error e
  | .ok (.obj fields) =>
    match dictGet fields "response" with
    | some (.obj inner) =>
      match dictGet inner "reply" with
      | some r => .ok (some r)
      | none => .error "KeyError: reply"
    | some _ => .error "TypeError: value is not subscriptable"
    | none => .error "KeyError: response"
  | .ok _ => .error "TypeError: value is not subscriptable"

/-- `AnonymousAccountManager.status`: a non-zero exit whose stdout contains
`"NoSuchAccount"` returns `None`; any other non-zero exit is merely logged;
in every remaining case stdout is parsed as JSON and the inner
`response.reply` object is returned. -/
def statusAnonymousAccount (conn : ExecCmd)
    (jsonLoads : String → Except String JVal) :
    List String × Except String (Option JVal) :=
  let (retcode, stdout, _) := conn statusCmdStr
  ([statusCmdStr],
    if retcode ≠ 0 then
      if containsNoSuchAccount stdout then .ok none
      else statusParseReply jsonLoads stdout
    else statusParseReply jsonLoads stdout)

/-- Modelled library function: Python's `int()` restricted to nonnegative
decimal literals, the domain relevant to `parse_dd_size_to_kb`. -/
def digitsToNat : List Char → Nat → Option Nat
  | [], acc => some acc
  | c :: t, acc =>
    if c.isDigit then digitsToNat t (acc * 10 + (c.toNat - Char.toNat '0'))
    else none

/-- Modelled library function: Python's `int(s)` on nonnegative decimal
strings; empty or non-digit input raises `ValueError` (here `none`). -/
def pyIntOfString (s : String) : Option Nat :=
  match s.data with
  | [] => none
  | l => digitsToNat l 0

/-- `parse_dd_size_to_kb` from `utility/utils.py`: split the size string
into its last character (the unit) and the leading integer, then convert
`K`, `M` and `G` to kilobytes, raising `ValueError` on any other unit. -/
def parse_dd_size_to_kb (size : String) : Except String Nat :=
  match size.data.getLast? with
  | none => .error "IndexError: string index out of range"
  | some unit =>
    match pyIntOfString ⟨size.data.dropLast⟩ with
    | none => .error "ValueError: invalid literal for int"
    | some n =>
      if unit = 'K' then .ok n
      else if unit = 'M' then .ok (n * 1024)
      else if unit = 'G' then .ok (n * 1024 * 1024)
      else .error "ValueError: Invalid size unit. Use K, M, or G."

/-! ### Helper lemmas about the embedded primitives -/

theorem strData_append (s t : String) : (s ++ t).data = s.data ++ t.data := by
  obtain ⟨sd⟩ := s
  obtain ⟨td⟩ := t
  rfl

theorem strStartsWith_append_self (pre v : String) :
    strStartsWith (pre ++ v) pre = true := by
  unfold strStartsWith
  rw [strData_append, List.isPrefixOf_iff_prefix]
  exact List.prefix_append _ _

theorem strStartsWith_empty (v : String) : strStartsWith v "" = true := by
  unfold strStartsWith
  rw [show ("" : String).data = [] from rfl, List.isPrefixOf_iff_prefix]
  exact List.nil_prefix

theorem dictGet_dictSet_self (d : List (String × JVal)) (k : String)
    (v : JVal) : dictGet (dictSet d k v) k = some v := by
  induction d with
  | nil => simp [dictGet, dictSet]
  | cons hd t ih =>
    obtain ⟨k2, w⟩ := hd
    by_cases hk : k2 = k <;> simp [dictGet, dictSet, hk, ih]

theorem setScalarOrList_get_none (d : List (String × JVal)) (k v : String)
    (h : dictGet d k = none) :
    dictGet (setScalarOrList d k v) k = some (.str v) := by
  unfold setScalarOrList
  rw [h]
  exact dictGet_dictSet_self d k _

theorem setScalarOrList_get_arr (d : List (String × JVal)) (k v : String)
    (l : List JVal) (h : dictGet d k = some (.arr l)) :
    dictGet (setScalarOrList d k v) k = some (.arr (l ++ [.str v])) := by
  unfold setScalarOrList
  rw [h]
  exact dictGet_dictSet_self d k _

theorem setScalarOrList_get_other (d : List (String × JVal)) (k v : String)
    (w : JVal) (h : dictGet d k = some w) (hw : ∀ l, w ≠ .arr l) :
    dictGet (setScalarOrList d k v) k = some (.arr [w, .str v]) := by
  unfold setScalarOrList
  rw [h]
  cases w with
  | arr l => exact absurd rfl (hw l)
  | str s => exact dictGet_dictSet_self d k _
  | obj f => exact dictGet_dictSet_self d k _
  | num n => exact dictGet_dictSet_self d k _
  | boolv b => exact dictGet_dictSet_self d k _
  | nullv => exact dictGet_dictSet_self d k _

/-- The canonical already-prefixed form: prepend `pre` unless present. -/
def ensureStarts (pre w : String) : String :=
  if strStartsWith w pre then w else pre ++ w

theorem ensureStarts_starts (pre w : String) :
    strStartsWith (ensureStarts pre w) pre = true := by
  unfold ensureStarts
  by_cases h : strStartsWith w pre = true
  · rw [if_pos h]; exact h
  · rw [if_neg h]; exact strStartsWith_append_self pre w

theorem ensureStarts_already (pre w : String)
    (h : strStartsWith w pre = true) : ensureStarts pre w = w := by
  unfold ensureStarts
  rw [if_pos h]

theorem ensureStarts_idem (pre w : String) :
    ensureStarts pre (ensureStarts pre w) = ensureStarts pre w :=
  ensureStarts_already pre _ (ensureStarts_starts pre w)

theorem assurePrefixed_action_eq (prop v : String)
    (hp : prop = "Action" ∨ prop = "NotAction") :
    assurePrefixed prop v = ensureStarts actionPrefixStr v := by
  rcases hp with hp | hp <;> subst hp <;>
    simp [assurePrefixed, ensureStarts,
      show pyInStr "action" (pyLower "Action") = true from by decide,
      show pyInStr "action" (pyLower "NotAction") = true from by decide]

theorem assurePrefixed_resource_eq (prop v : String)
    (hp : prop = "Resource" ∨ prop = "NotResource") :
    assurePrefixed prop v = ensureStarts resourcePrefixStr v := by
  rcases hp with hp | hp <;> subst hp <;>
    simp [assurePrefixed, ensureStarts,
      show pyInStr "action" (pyLower "Resource") = false from by decide,
      show pyInStr "resource" (pyLower "Resource") = true from by decide,
      show pyInStr "action" (pyLower "NotResource") = false from by decide,
      show pyInStr "resource" (pyLower "NotResource") = true from by decide]

theorem assurePrefixed_principal_eq (prop v : String)
    (hp : prop = "Principal" ∨ prop = "NotPrincipal") :
    assurePrefixed prop v = v := by
  rcases hp with hp | hp <;> subst hp <;>
    simp [assurePrefixed, strStartsWith_empty,
      show pyInStr "action" (pyLower "Principal") = false from by decide,
      show pyInStr "resource" (pyLower "Principal") = false from by decide,
      show pyInStr "action" (pyLower "NotPrincipal") = false from by decide,
      show pyInStr "resource" (pyLower "NotPrincipal") = false from by decide]

/-! ### Structural lemmas about the builder update -/

theorem updateStmt_direct (stmt : Stmt) (prop v : String)
    (hp : pyInStr "principal" (pyLower prop) = false) :
    updateStmtProperty stmt prop v =
      (none, setScalarOrList stmt prop (assurePrefixed prop v)) := by
  simp [updateStmtProperty, hp]

theorem updateStmt_principal_none (stmt : Stmt) (prop v : String)
    (hp : pyInStr "principal" (pyLower prop) = true)
    (hget : dictGet stmt prop = none) :
    updateStmtProperty stmt prop v =
      (none, dictSet stmt prop
        (.obj (setScalarOrList [] "AWS" (assurePrefixed prop v)))) := by
  simp [updateStmtProperty, hp, hget]

theorem updateStmt_principal_obj (stmt : Stmt) (prop v : String)
    (fields : List (String × JVal))
    (hp : pyInStr "principal" (pyLower prop) = true)
    (hget : dictGet stmt prop = some (.obj fields)) :
    updateStmtProperty stmt prop v =
      (none, dictSet stmt prop
        (.obj (setScalarOrList fields "AWS" (assurePrefixed prop v)))) := by
  simp [updateStmtProperty, hp, hget]

theorem updateOnLast_success (stmts : List Stmt) (prop v : String)
    (lastStmt newStmt : Stmt) (hlast : stmts.getLast? = some lastStmt)
    (hupd : updateStmtProperty lastStmt prop v = (none, newStmt)) :
    updatePropertyOnLastStatement stmts prop v =
      (none, stmts.dropLast ++ [newStmt]) := by
  simp [updatePropertyOnLastStatement, hlast, hupd]

theorem updateOnLast_frame (stmts : List Stmt) (prop v : String) :
    (stmts = [] → updatePropertyOnLastStatement stmts prop v =
      (some "No statement to update", stmts)) ∧
    (updatePropertyOnLastStatement stmts prop v).2.dropLast =
      stmts.dropLast ∧
    (updatePropertyOnLastStatement stmts prop v).2.length = stmts.length := by
  unfold updatePropertyOnLastStatement
  cases hlast : stmts.getLast? with
  | none => simp
  | some lastStmt =>
    have hne : stmts ≠ [] := by
      intro hn
      subst hn
      simp at hlast
    have hlen : 0 < stmts.length := List.length_pos.mpr hne
    refine ⟨fun hn => absurd hn hne, ?_⟩
    cases hupd : updateStmtProperty lastStmt prop v with
    | mk o newStmt =>
      cases o with
      | some e => simp [hupd]
      | none =>
        simp only [hupd]
        constructor
        · simp
        · simp [List.length_dropLast]
          omega

theorem updateOnPolicy_frame (p : BucketPolicy) (prop v : String) :
    (p.statements = [] → updateOnPolicy p prop v =
      (some "No statement to update", p)) ∧
    (updateOnPolicy p prop v).2.statements.dropLast =
      p.statements.dropLast ∧
    (updateOnPolicy p prop v).2.statements.length = p.statements.length ∧
    (updateOnPolicy p prop v).2.version = p.version := by
  obtain ⟨h1, h2, h3⟩ := updateOnLast_frame p.statements prop v
  refine ⟨fun hn => ?_, h2, h3, rfl⟩
  unfold updateOnPolicy
  rw [h1 hn]

/-! ### Claim theorems -/

/-- C5: for every registered validation strategy and every response,
`check_client_access_to_bucket_op` returns `True` when the response code
equals the strategy's expected success code, returns `False` when the
response code is `"AccessDenied"`, and raises on every other code. -/
theorem c5_access_classification (strat : AccessValidationStrategy)
    (code : String) (h : strat.expected_success_code ≠ "AccessDenied") :
    (code = strat.expected_success_code →
      checkClientAccessToBucketOp strat code = .ok true) ∧
    (code = "AccessDenied" →
      checkClientAccessToBucketOp strat code = .ok false) ∧
    (code ≠ strat.expected_success_code → code ≠ "AccessDenied" →
      checkClientAccessToBucketOp strat code =
        .error ("Unexpected response code: " ++ code)) := by
  unfold checkClientAccessToBucketOp
  refine ⟨fun h1 => by rw [if_pos h1], fun h2 => ?_, fun h1 h2 => ?_⟩
  · subst h2
    rw [if_neg fun hh => h hh.symm, if_pos rfl]
  · rw [if_neg h1, if_neg h2]

/-- Witness for C5 at a concrete strategy and response. -/
theorem c5_witness :
    (AccessValidationStrategy.mk "200").expected_success_code ≠
      "AccessDenied" ∧
    checkClientAccessToBucketOp (AccessValidationStrategy.mk "200")
      "AccessDenied" = .ok false :=
  ⟨by decide,
    (c5_access_classification (AccessValidationStrategy.mk "200")
      "AccessDenied" (by decide)).2.1 rfl⟩

/-- C6: on a zero exit code, `AnonymousAccountManager.status` parses stdout
as JSON of shape `{"response": {"reply": ...}}` and returns exactly the
inner reply object. -/
theorem c6_status_success_returns_reply (conn : ExecCmd)
    (jsonLoads : String → Except String JVal) (stdout stderr : String)
    (fields inner : List (String × JVal)) (r : JVal)
    (hconn : conn statusCmdStr = (0, stdout, stderr))
    (hjson : jsonLoads stdout = .ok (.obj fields))
    (hresp : dictGet fields "response" = some (.obj inner))
    (hreply : dictGet inner "reply" = some r) :
    statusAnonymousAccount conn jsonLoads = ([statusCmdStr], .ok (some r)) := by
  unfold statusAnonymousAccount
  rw [hconn]
  simp [statusParseReply, hjson, hresp, hreply]

/-- Witness for C6 at a concrete connection and parsed reply. -/
theorem c6_witness :
    statusAnonymousAccount (fun _ => ((0 : Int), "out", ""))
        (fun _ => .ok (.obj [("response", .obj [("reply", .str "r1")])])) =
      ([statusCmdStr], .ok (some (.str "r1"))) :=
  c6_status_success_returns_reply (fun _ => ((0 : Int), "out", ""))
    (fun _ => .ok (.obj [("response", .obj [("reply", .str "r1")])]))
    "out" "" [("response", .obj [("reply", .str "r1")])]
    [("reply", .str "r1")] (.str "r1") rfl rfl rfl rfl

/-- C2 counterexample: `AnonymousAccountManager.delete` sees a non-zero exit
code with `"NoSuchAccount"` in stdout and returns normally instead of
raising a typed exception. -/
theorem c2_counterexample :
    (deleteAnonymousAccount
        (fun _ => (1, "NoSuchAccount: anonymous account does not exist", ""))).2 =
      Except.ok () := rfl

/-- C2 (amended): for every method call in which the remote command exits
non-zero and its stdout contains the substring `"NoSuchAccount"`, `create`
raises a typed exception (`AccountCreationFailed`), while `delete` returns
normally, treating the account as already deleted, and `status` returns
`None` without raising. -/
theorem c2_amended_nosuchaccount_handling (conn : ExecCmd)
    (jsonLoads : String → Except String JVal) (u g : String)
    (rcC rcD rcS : Int) (outC outD outS eC eD eS : String)
    (hC : conn (createUidGidCmd u g) = (rcC, outC, eC))
    (hD : conn deleteCmdStr = (rcD, outD, eD))
    (hS : conn statusCmdStr = (rcS, outS, eS)) :
    (rcC ≠ 0 → containsNoSuchAccount outC = true →
      (createAnonymousAccount (some u) (some g) none conn).2 =
        .error ("AccountCreationFailed: Creation of anonymous account failed with error " ++ outC)) ∧
    (rcD ≠ 0 → containsNoSuchAccount outD = true →
      (deleteAnonymousAccount conn).2 = .ok ()) ∧
    (rcS ≠ 0 → containsNoSuchAccount outS = true →
      (statusAnonymousAccount conn jsonLoads).2 = .ok none) := by
  refine ⟨fun h1 _ => ?_, fun h1 h2 => ?_, fun h1 h2 => ?_⟩
  · unfold createAnonymousAccount
    dsimp only
    rw [hC]
    simp [h1]
  · unfold deleteAnonymousAccount
    rw [hD]
    simp [h1, h2]
  · unfold statusAnonymousAccount
    rw [hS]
    simp [h1, h2]

/-- Witness for the amended C2 at a concrete failing connection. -/
theorem c2_witness :
    ((1 : Int) ≠ 0 ∧
      containsNoSuchAccount "NoSuchAccount" = true) ∧
    (createAnonymousAccount (some "101") (some "102") none
        (fun _ => ((1 : Int), "NoSuchAccount", ""))).2 =
      .error ("AccountCreationFailed: Creation of anonymous account failed with error " ++ "NoSuchAccount") :=
  ⟨⟨by decide, rfl⟩,
    (c2_amended_nosuchaccount_handling
      (fun _ => ((1 : Int), "NoSuchAccount", ""))
      (fun _ => .error "unused") "101" "102" 1 1 1
      "NoSuchAccount" "NoSuchAccount" "NoSuchAccount" "" "" ""
      rfl rfl rfl).1 (by decide) rfl⟩

/-- C10: `AnonymousAccountManager.create` raises `AccountCreationFailed`
before executing any remote command whenever neither a uid-and-gid pair nor
a user name is provided. -/
theorem c10_create_validates_before_any_exec (conn : ExecCmd)
    (uid gid : Option String) (h : uid = none ∨ gid = none) :
    createAnonymousAccount uid gid none conn = ([], .error missingArgsMsg) := by
  rcases h with h | h
  · subst h
    rfl
  · subst h
    cases uid <;> rfl

/-- Witness for C10 at a concrete argument set. -/
theorem c10_witness :
    ((some "7" : Option String) = none ∨ (none : Option String) = none) ∧
    createAnonymousAccount (some "7") none none (fun _ => (0, "", "")) =
      ([], .error missingArgsMsg) :=
  ⟨Or.inr rfl,
    c10_create_validates_before_any_exec (fun _ => (0, "", ""))
      (some "7") none (Or.inr rfl)⟩

/-- C9: `parse_dd_size_to_kb` maps a decimal integer `n` followed by unit
`K`, `M` or `G` to `n`, `n * 1024` and `n * 1024 * 1024` kilobytes
respectively, and raises `ValueError` on every other unit letter. -/
theorem c9_parse_dd_size_to_kb_units (ds : List Char) (n : Nat) (u : Char)
    (h : pyIntOfString ⟨ds⟩ = some n) :
    (u = 'K' → parse_dd_size_to_kb ⟨ds ++ [u]⟩ = .ok n) ∧
    (u = 'M' → parse_dd_size_to_kb ⟨ds ++ [u]⟩ = .ok (n * 1024)) ∧
    (u = 'G' → parse_dd_size_to_kb ⟨ds ++ [u]⟩ = .ok (n * 1024 * 1024)) ∧
    (u ≠ 'K' → u ≠ 'M' → u ≠ 'G' →
      parse_dd_size_to_kb ⟨ds ++ [u]⟩ =
        .error "ValueError: Invalid size unit. Use K, M, or G.") := by
  have h1 : (String.mk (ds ++ [u])).data.getLast? = some u := by simp
  have h2 : (String.mk (ds ++ [u])).data.dropLast = ds := by simp
  refine ⟨fun hu => ?_, fun hu => ?_, fun hu => ?_, fun hK hM hG => ?_⟩ <;>
    · unfold parse_dd_size_to_kb
      rw [h1]
      simp only [h2]
      rw [h]
      first
      | (subst hu; simp)
      | simp [hK, hM, hG]

/-- Witness for C9 at the concrete size string `"25M"`. -/
theorem c9_witness :
    pyIntOfString ⟨['2', '5']⟩ = some 25 ∧
    parse_dd_size_to_kb ⟨['2', '5'] ++ ['M']⟩ = .ok (25 * 1024) :=
  ⟨rfl, (c9_parse_dd_size_to_kb_units ['2', '5'] 25 'M' rfl).2.1 rfl⟩

/-- Where a builder-managed property value actually lives on a statement:
principal-like properties keep their value under the `"AWS"` key of a nested
dict, all other properties directly under the property key. -/
def storedPropertyValue (stmt : Stmt) (property : String) : Option JVal :=
  if pyInStr "principal" (pyLower property) then
    match dictGet stmt property with
    | some (.obj fields) => dictGet fields "AWS"
    | _ => none
  else dictGet stmt property

theorem storedPropertyValue_principal (stmt : Stmt) (prop : String)
    (hp : pyInStr "principal" (pyLower prop) = true)
    (fields : List (String × JVal))
    (hget : dictGet stmt prop = some (.obj fields)) :
    storedPropertyValue stmt prop = dictGet fields "AWS" := by
  simp [storedPropertyValue, hp, hget]

theorem storedPropertyValue_principal_missing (stmt : Stmt) (prop : String)
    (hp : pyInStr "principal" (pyLower prop) = true)
    (hget : dictGet stmt prop = none) :
    storedPropertyValue stmt prop = none := by
  simp [storedPropertyValue, hp, hget]

theorem storedPropertyValue_direct (stmt : Stmt) (prop : String)
    (hp : pyInStr "principal" (pyLower prop) = false) :
    storedPropertyValue stmt prop = dictGet stmt prop := by
  simp [storedPropertyValue, hp]

theorem updateOnPolicy_getLast (p : BucketPolicy) (prop v : String)
    (lastStmt newStmt : Stmt) (hlast : p.statements.getLast? = some lastStmt)
    (hupd : updateStmtProperty lastStmt prop v = (none, newStmt)) :
    (updateOnPolicy p prop v).2.statements.getLast? = some newStmt := by
  show (updatePropertyOnLastStatement p.statements prop v).2.getLast? = _
  rw [updateOnLast_success p.statements prop v lastStmt newStmt hlast hupd]
  simp

/-- C1: with at least one statement present, each of the six
property-adding builder operations mutates only the last statement (all
earlier statements, the statement count and the version are unchanged);
with no statement present, each raises `ValueError` and leaves the policy
unchanged. -/
theorem c1_property_ops_touch_only_last_statement (p : BucketPolicy)
    (v : String) :
    ∀ op ∈ ([addPrincipal, addNotPrincipal, addAction, addNotAction,
        addResource, addNotResource] :
        List (BucketPolicy → String → Option String × BucketPolicy)),
      (p.statements = [] → op p v = (some "No statement to update", p)) ∧
      (p.statements ≠ [] →
        (op p v).2.statements.dropLast = p.statements.dropLast ∧
        (op p v).2.statements.length = p.statements.length ∧
        (op p v).2.version = p.version) := by
  intro op hop
  simp only [List.mem_cons, List.not_mem_nil, or_false] at hop
  rcases hop with h | h | h | h | h | h <;> subst h <;>
    exact ⟨(updateOnPolicy_frame p _ v).1,
      fun _ => ⟨(updateOnPolicy_frame p _ v).2.1,
        (updateOnPolicy_frame p _ v).2.2.1,
        (updateOnPolicy_frame p _ v).2.2.2⟩⟩

/-- Witness for C1: a populated policy and the empty policy. -/
theorem c1_witness :
    (addAction ⟨"2012-10-17",
        [[("Effect", JVal.str "Deny")], [("Effect", JVal.str "Allow")]]⟩
      "GetObject").2.statements.dropLast =
      ([[("Effect", JVal.str "Deny")], [("Effect", JVal.str "Allow")]] :
        List Stmt).dropLast ∧
    addPrincipal ⟨"2012-10-17", []⟩ "joe" =
      (some "No statement to update", ⟨"2012-10-17", []⟩) :=
  ⟨((c1_property_ops_touch_only_last_statement
        ⟨"2012-10-17",
          [[("Effect", JVal.str "Deny")], [("Effect", JVal.str "Allow")]]⟩
        "GetObject" addAction
        (List.Mem.tail _ (List.Mem.tail _ (List.Mem.head _)))).2
      (by simp)).1,
    (c1_property_ops_touch_only_last_statement ⟨"2012-10-17", []⟩ "joe"
      addPrincipal (List.Mem.head _)).1 rfl⟩

/-- C7: `add_allow_statement` and `add_deny_statement` append exactly one
statement at the end, and the six property-adding operations leave every
statement but the last unchanged and never remove or reorder statements. -/
theorem c7_statement_order_preserved (p : BucketPolicy) (v : String) :
    (addAllowStatement p).statements =
      p.statements ++ [[("Effect", JVal.str "Allow")]] ∧
    (addDenyStatement p).statements =
      p.statements ++ [[("Effect", JVal.str "Deny")]] ∧
    ((addPrincipal p v).2.statements.dropLast = p.statements.dropLast ∧
      (addPrincipal p v).2.statements.length = p.statements.length) ∧
    ((addNotPrincipal p v).2.statements.dropLast = p.statements.dropLast ∧
      (addNotPrincipal p v).2.statements.length = p.statements.length) ∧
    ((addAction p v).2.statements.dropLast = p.statements.dropLast ∧
      (addAction p v).2.statements.length = p.statements.length) ∧
    ((addNotAction p v).2.statements.dropLast = p.statements.dropLast ∧
      (addNotAction p v).2.statements.length = p.statements.length) ∧
    ((addResource p v).2.statements.dropLast = p.statements.dropLast ∧
      (addResource p v).2.statements.length = p.statements.length) ∧
    ((addNotResource p v).2.statements.dropLast = p.statements.dropLast ∧
      (addNotResource p v).2.statements.length = p.statements.length) :=
  ⟨rfl, rfl,
    ⟨(updateOnPolicy_frame p "Principal" v).2.1,
      (updateOnPolicy_frame p "Principal" v).2.2.1⟩,
    ⟨(updateOnPolicy_frame p "NotPrincipal" v).2.1,
      (updateOnPolicy_frame p "NotPrincipal" v).2.2.1⟩,
    ⟨(updateOnPolicy_frame p "Action" v).2.1,
      (updateOnPolicy_frame p "Action" v).2.2.1⟩,
    ⟨(updateOnPolicy_frame p "NotAction" v).2.1,
      (updateOnPolicy_frame p "NotAction" v).2.2.1⟩,
    ⟨(updateOnPolicy_frame p "Resource" v).2.1,
      (updateOnPolicy_frame p "Resource" v).2.2.1⟩,
    ⟨(updateOnPolicy_frame p "NotResource" v).2.1,
      (updateOnPolicy_frame p "NotResource" v).2.2.1⟩⟩

/-- C3: the action and resource prefixing is idempotent: one application
yields a value starting with the fixed prefix, an already-prefixed value is
returned unchanged, and applying the prefixing twice equals applying it
once. -/
theorem c3_prefixing_idempotent (v : String) :
    (∀ prop, prop = "Action" ∨ prop = "NotAction" →
      strStartsWith (assurePrefixed prop v) actionPrefixStr = true ∧
      (strStartsWith v actionPrefixStr = true → assurePrefixed prop v = v) ∧
      assurePrefixed prop (assurePrefixed prop v) = assurePrefixed prop v) ∧
    (∀ prop, prop = "Resource" ∨ prop = "NotResource" →
      strStartsWith (assurePrefixed prop v) resourcePrefixStr = true ∧
      (strStartsWith v resourcePrefixStr = true →
        assurePrefixed prop v = v) ∧
      assurePrefixed prop (assurePrefixed prop v) = assurePrefixed prop v) := by
  constructor
  · intro prop hpq
    rw [assurePrefixed_action_eq prop (assurePrefixed prop v) hpq,
      assurePrefixed_action_eq prop v hpq]
    exact ⟨ensureStarts_starts _ _, fun h => ensureStarts_already _ _ h,
      ensureStarts_idem _ _⟩
  · intro prop hpq
    rw [assurePrefixed_resource_eq prop (assurePrefixed prop v) hpq,
      assurePrefixed_resource_eq prop v hpq]
    exact ⟨ensureStarts_starts _ _, fun h => ensureStarts_already _ _ h,
      ensureStarts_idem _ _⟩

/-- Witness for C3 at a concrete action value. -/
theorem c3_witness :
    (("Action" : String) = "Action" ∨ ("Action" : String) = "NotAction") ∧
    strStartsWith (assurePrefixed "Action" "GetObject") actionPrefixStr =
      true ∧
    assurePrefixed "Action" (assurePrefixed "Action" "GetObject") =
      assurePrefixed "Action" "GetObject" :=
  ⟨Or.inl rfl,
    ((c3_prefixing_idempotent "GetObject").1 "Action" (Or.inl rfl)).1,
    ((c3_prefixing_idempotent "GetObject").1 "Action" (Or.inl rfl)).2.2⟩

/-- C4: on the last statement, the first value added for a property is
stored as a scalar, a second value for the same property turns the field
into the two-element list of the old and new value, and every further value
is appended to that list. -/
theorem c4_scalar_then_list (p : BucketPolicy) (prop v : String)
    (_hprop : prop ∈ (["Principal", "NotPrincipal", "Action", "NotAction",
      "Resource", "NotResource"] : List String))
    (lastStmt : Stmt) (hlast : p.statements.getLast? = some lastStmt)
    (hwf : pyInStr "principal" (pyLower prop) = true →
      dictGet lastStmt prop = none ∨
        ∃ fields, dictGet lastStmt prop = some (.obj fields)) :
    ∃ newLast,
      (updateOnPolicy p prop v).2.statements.getLast? = some newLast ∧
      (storedPropertyValue lastStmt prop = none →
        storedPropertyValue newLast prop =
          some (.str (assurePrefixed prop v))) ∧
      (∀ w, storedPropertyValue lastStmt prop = some (.str w) →
        storedPropertyValue newLast prop =
          some (.arr [.str w, .str (assurePrefixed prop v)])) ∧
      (∀ l, storedPropertyValue lastStmt prop = some (.arr l) →
        storedPropertyValue newLast prop =
          some (.arr (l ++ [.str (assurePrefixed prop v)]))) := by
  by_cases hp : pyInStr "principal" (pyLower prop) = true
  · rcases hwf hp with hget | ⟨fields, hget⟩
    · refine ⟨dictSet lastStmt prop
          (.obj (setScalarOrList [] "AWS" (assurePrefixed prop v))),
        updateOnPolicy_getLast p prop v lastStmt _ hlast
          (updateStmt_principal_none lastStmt prop v hp hget),
        fun _ => ?_, fun w hw => ?_, fun l hl => ?_⟩
      · rw [storedPropertyValue_principal _ prop hp _
          (dictGet_dictSet_self lastStmt prop _)]
        exact setScalarOrList_get_none [] "AWS" _ rfl
      · rw [storedPropertyValue_principal_missing lastStmt prop hp hget]
          at hw
        cases hw
      · rw [storedPropertyValue_principal_missing lastStmt prop hp hget]
          at hl
        cases hl
    · have hstored := storedPropertyValue_principal lastStmt prop hp fields
        hget
      refine ⟨dictSet lastStmt prop
          (.obj (setScalarOrList fields "AWS" (assurePrefixed prop v))),
        updateOnPolicy_getLast p prop v lastStmt _ hlast
          (updateStmt_principal_obj lastStmt prop v fields hp hget),
        fun h0 => ?_, fun w hw => ?_, fun l hl => ?_⟩
      · rw [storedPropertyValue_principal _ prop hp _
          (dictGet_dictSet_self lastStmt prop _)]
        rw [hstored] at h0
        exact setScalarOrList_get_none fields "AWS" _ h0
      · rw [storedPropertyValue_principal _ prop hp _
          (dictGet_dictSet_self lastStmt prop _)]
        rw [hstored] at hw
        exact setScalarOrList_get_other fields "AWS" _ _ hw
          (fun l hl => JVal.noConfusion hl)
      · rw [storedPropertyValue_principal _ prop hp _
          (dictGet_dictSet_self lastStmt prop _)]
        rw [hstored] at hl
        exact setScalarOrList_get_arr fields "AWS" _ l hl
  · have hpf : pyInStr "principal" (pyLower prop) = false := by
      simpa using hp
    have hstored := storedPropertyValue_direct lastStmt prop hpf
    have hstoredNew := storedPropertyValue_direct
      (setScalarOrList lastStmt prop (assurePrefixed prop v)) prop hpf
    refine ⟨setScalarOrList lastStmt prop (assurePrefixed prop v),
      updateOnPolicy_getLast p prop v lastStmt _ hlast
        (updateStmt_direct lastStmt prop v hpf),
      fun h0 => ?_, fun w hw => ?_, fun l hl => ?_⟩
    · rw [hstoredNew]
      rw [hstored] at h0
      exact setScalarOrList_get_none lastStmt prop _ h0
    · rw [hstoredNew]
      rw [hstored] at hw
      exact setScalarOrList_get_other lastStmt prop _ _ hw
        (fun l hl => JVal.noConfusion hl)
    · rw [hstoredNew]
      rw [hstored] at hl
      exact setScalarOrList_get_arr lastStmt prop _ l hl

/-- Witness for C4: adding a first action then a second on one statement. -/
theorem c4_witness :
    (("Action" : String) ∈ (["Principal", "NotPrincipal", "Action",
      "NotAction", "Resource", "NotResource"] : List String)) ∧
    (∃ newLast,
      (updateOnPolicy ⟨"v1", [[("Effect", JVal.str "Allow")]]⟩ "Action"
        "GetObject").2.statements.getLast? = some newLast ∧
      (storedPropertyValue [("Effect", JVal.str "Allow")] "Action" = none →
        storedPropertyValue newLast "Action" =
          some (.str (assurePrefixed "Action" "GetObject"))) ∧
      (∀ w, storedPropertyValue [("Effect", JVal.str "Allow")] "Action" =
          some (.str w) →
        storedPropertyValue newLast "Action" =
          some (.arr [.str w, .str (assurePrefixed "Action" "GetObject")])) ∧
      (∀ l, storedPropertyValue [("Effect", JVal.str "Allow")] "Action" =
          some (.arr l) →
        storedPropertyValue newLast "Action" =
          some (.arr (l ++ [.str (assurePrefixed "Action" "GetObject")])))) :=
  ⟨by simp,
    c4_scalar_then_list ⟨"v1", [[("Effect", JVal.str "Allow")]]⟩ "Action"
      "GetObject" (by simp) [("Effect", JVal.str "Allow")] rfl
      (fun h => absurd h (by decide))⟩

/-- C8: values added through `add_principal` / `add_not_principal` end up
nested under an `"AWS"` key of the statement field (a scalar for the first
value, a list afterwards), while values added through the action and
resource operations are stored directly as the field value. -/
theorem c8_principal_aws_nesting (p : BucketPolicy) (v : String)
    (lastStmt : Stmt) (hlast : p.statements.getLast? = some lastStmt) :
    (∀ prop, prop = "Principal" ∨ prop = "NotPrincipal" →
      (dictGet lastStmt prop = none ∨
        ∃ f, dictGet lastStmt prop = some (.obj f)) →
      ∃ newLast fields,
        (updateOnPolicy p prop v).2.statements.getLast? = some newLast ∧
        dictGet newLast prop = some (.obj fields) ∧
        (dictGet fields "AWS" = some (.str v) ∨
          ∃ vs, dictGet fields "AWS" = some (.arr vs))) ∧
    (∀ prop, prop = "Action" ∨ prop = "NotAction" ∨ prop = "Resource" ∨
        prop = "NotResource" →
      ∃ newLast,
        (updateOnPolicy p prop v).2.statements.getLast? = some newLast ∧
        (dictGet newLast prop = some (.str (assurePrefixed prop v)) ∨
          ∃ vs, dictGet newLast prop = some (.arr vs))) := by
  constructor
  · intro prop hpq hwf
    have hp : pyInStr "principal" (pyLower prop) = true := by
      rcases hpq with h | h <;> subst h <;> decide
    have hv : assurePrefixed prop v = v :=
      assurePrefixed_principal_eq prop v hpq
    rcases hwf with hget | ⟨f, hget⟩
    · refine ⟨dictSet lastStmt prop
          (.obj (setScalarOrList [] "AWS" (assurePrefixed prop v))),
        setScalarOrList [] "AWS" (assurePrefixed prop v),
        updateOnPolicy_getLast p prop v lastStmt _ hlast
          (updateStmt_principal_none lastStmt prop v hp hget),
        dictGet_dictSet_self lastStmt prop _, Or.inl ?_⟩
      rw [hv]
      exact setScalarOrList_get_none [] "AWS" v rfl
    · refine ⟨dictSet lastStmt prop
          (.obj (setScalarOrList f "AWS" (assurePrefixed prop v))),
        setScalarOrList f "AWS" (assurePrefixed prop v),
        updateOnPolicy_getLast p prop v lastStmt _ hlast
          (updateStmt_principal_obj lastStmt prop v f hp hget),
        dictGet_dictSet_self lastStmt prop _, ?_⟩
      cases haws : dictGet f "AWS" with
      | none =>
        left
        rw [hv]
        exact setScalarOrList_get_none f "AWS" v haws
      | some w =>
        right
        cases w with
        | arr l =>
          exact ⟨l ++ [.str (assurePrefixed prop v)],
            setScalarOrList_get_arr f "AWS" _ l haws⟩
        | str s =>
          exact ⟨[.str s, .str (assurePrefixed prop v)],
            setScalarOrList_get_other f "AWS" _ _ haws
              (fun l hl => JVal.noConfusion hl)⟩
        | obj g =>
          exact ⟨[.obj g, .str (assurePrefixed prop v)],
            setScalarOrList_get_other f "AWS" _ _ haws
              (fun l hl => JVal.noConfusion hl)⟩
        | num n =>
          exact ⟨[.num n, .str (assurePrefixed prop v)],
            setScalarOrList_get_other f "AWS" _ _ haws
              (fun l hl => JVal.noConfusion hl)⟩
        | boolv b =>
          exact ⟨[.boolv b, .str (assurePrefixed prop v)],
            setScalarOrList_get_other f "AWS" _ _ haws
              (fun l hl => JVal.noConfusion hl)⟩
        | nullv =>
          exact ⟨[.nullv, .str (assurePrefixed prop v)],
            setScalarOrList_get_other f "AWS" _ _ haws
              (fun l hl => JVal.noConfusion hl)⟩
  · intro prop hpq
    have hpf : pyInStr "principal" (pyLower prop) = false := by
      rcases hpq with h | h | h | h <;> subst h <;> decide
    refine ⟨setScalarOrList lastStmt prop (assurePrefixed prop v),
      updateOnPolicy_getLast p prop v lastStmt _ hlast
        (updateStmt_direct lastStmt prop v hpf), ?_⟩
    cases hget : dictGet lastStmt prop with
    | none =>
      exact Or.inl (setScalarOrList_get_none lastStmt prop _ hget)
    | some w =>
      right
      cases w with
      | arr l =>
        exact ⟨l ++ [.str (assurePrefixed prop v)],
          setScalarOrList_get_arr lastStmt prop _ l hget⟩
      | str s =>
        exact ⟨[.str s, .str (assurePrefixed prop v)],
          setScalarOrList_get_other lastStmt prop _ _ hget
            (fun l hl => JVal.noConfusion hl)⟩
      | obj g =>
        exact ⟨[.obj g, .str (assurePrefixed prop v)],
          setScalarOrList_get_other lastStmt prop _ _ hget
            (fun l hl => JVal.noConfusion hl)⟩
      | num n =>
        exact ⟨[.num n, .str (assurePrefixed prop v)],
          setScalarOrList_get_other lastStmt prop _ _ hget
            (fun l hl => JVal.noConfusion hl)⟩
      | boolv b =>
        exact ⟨[.boolv b, .str (assurePrefixed prop v)],
          setScalarOrList_get_other lastStmt prop _ _ hget
            (fun l hl => JVal.noConfusion hl)⟩
      | nullv =>
        exact ⟨[.nullv, .str (assurePrefixed prop v)],
          setScalarOrList_get_other lastStmt prop _ _ hget
            (fun l hl => JVal.noConfusion hl)⟩

/-- Witness for C8 on a policy with one bare statement. -/
theorem c8_witness :
    (∃ newLast fields,
      (updateOnPolicy ⟨"v1", [[]]⟩ "Principal" "joe").2.statements.getLast? =
        some newLast ∧
      dictGet newLast "Principal" = some (.obj fields) ∧
      (dictGet fields "AWS" = some (.str "joe") ∨
        ∃ vs, dictGet fields "AWS" = some (.arr vs))) ∧
    (∃ newLast,
      (updateOnPolicy ⟨"v1", [[]]⟩ "Resource" "joe").2.statements.getLast? =
        some newLast ∧
      (dictGet newLast "Resource" =
          some (.str (assurePrefixed "Resource" "joe")) ∨
        ∃ vs, dictGet newLast "Resource" = some (.arr vs))) :=
  ⟨(c8_principal_aws_nesting ⟨"v1", [[]]⟩ "joe" [] rfl).1 "Principal"
      (Or.inl rfl) (Or.inl rfl),
    (c8_principal_aws_nesting ⟨"v1", [[]]⟩ "joe" [] rfl).2 "Resource"
      (Or.inr (Or.inr (Or.inl rfl)))⟩

end NoobaaSa
